import Mathlib

/-!
Shallow embedding of the Whist repository (src/src/game.ts and src/src/server.ts).

JS records keyed by player id are modelled as functions `String → Option α`
(`none` = key absent).  JS numbers are modelled as `Int` (scores, bids) or
`Nat` (ranks, indices); all values the game manipulates are small integers.
The `Math.random`-driven shuffle is passed in as an explicit function
parameter.  Throwing JS methods are modelled with
`Except (String × GameState) _`: the error value carries the state as it
stood at the moment of the throw, so that partial mutation before a throw
is observable in the model exactly when it is observable in the source.
-/

inductive Suit : Type
  | S | H | D | C
deriving DecidableEq, Repr

inductive Phase : Type
  | waiting | choose_trump | bidding | playing | hand_end | game_end | trick_pause
deriving DecidableEq, Repr

structure Card : Type where
  suit : Suit
  rank : Nat
deriving DecidableEq, Repr

structure TrickEntry : Type where
  pid : String
  card : Card
deriving DecidableEq, Repr

/-- Streak type: `'+'` (success) / `'-'` (failure) / `null`. -/
inductive StreakType : Type
  | plus | minus
deriving DecidableEq, Repr

structure Streak : Type where
  type : Option StreakType
  count : Nat
deriving DecidableEq, Repr

def SUITS : List Suit := [Suit.S, Suit.H, Suit.D, Suit.C]

def RANKS_ASC : List Nat := [2, 3, 4, 5, 6, 7, 8, 9, 10, 11, 12, 13, 14]

/-- Model of `cardToString` from game.ts. -/
def suitChar (s : Suit) : String :=
  match s with
  | Suit.S => "S"
  | Suit.H => "H"
  | Suit.D => "D"
  | Suit.C => "C"

def cardToString (c : Card) : String :=
  let rs := if c.rank = 14 then "A" else if c.rank = 13 then "K"
    else if c.rank = 12 then "Q" else if c.rank = 11 then "J" else toString c.rank
  rs ++ suitChar c.suit

/-- Model of `compareCards` from game.ts: returns 1 if a>b, -1 if a<b, 0 otherwise. -/
def compareCards (a b : Card) (leadSuit trumpSuit : Option Suit) : Int :=
  let aTrump := some a.suit = trumpSuit
  let bTrump := some b.suit = trumpSuit
  if aTrump ∧ ¬ bTrump then 1
  else if ¬ aTrump ∧ bTrump then -1
  else
    let aLead := some a.suit = leadSuit
    let bLead := some b.suit = leadSuit
    if aLead ∧ ¬ bLead then 1
    else if ¬ aLead ∧ bLead then -1
    else if a.suit ≠ b.suit then 0
    else if a.rank = b.rank then 0
    else if a.rank > b.rank then 1
    else -1

/-- Model of `buildSchedule` from game.ts. -/
def buildSchedule (numPlayers : Nat) : List Nat :=
  List.replicate numPlayers 1 ++ [2, 3, 4, 5, 6, 7]
    ++ List.replicate numPlayers 8 ++ [7, 6, 5, 4, 3, 2]
    ++ List.replicate numPlayers 1

/-- The mutable state of a `WhistGame` instance (game.ts, class fields). -/
structure GameState : Type where
  playerIds : List String
  dealerIndex : Nat
  schedule : List Nat
  handIndex : Nat
  totalScores : String → Option Int
  streaks : String → Option Streak
  phase : Phase
  trumpSuit : Option Suit
  hands : String → Option (List Card)
  bids : String → Option (Option Int)
  tricksWon : String → Option Nat
  currentTrick : List TrickEntry
  leadSuit : Option Suit
  pendingPlayTurnIndex : Option Nat
  bidTurnIndex : Nat
  playTurnIndex : Option Nat

/-- Assignment (or deletion, with `v = none`) of one key of a JS record. -/
def setKey {α : Type} (m : String → Option α) (k : String) (v : Option α) :
    String → Option α :=
  fun x => if x = k then v else m x

def numPlayers (g : GameState) : Nat := g.playerIds.length

/-- Model of `currentHandSize` getter: `this.schedule[this.handIndex] || 1`
(JS `||` turns both a missing entry and a 0 entry into 1). -/
def currentHandSize (g : GameState) : Nat :=
  match g.schedule[g.handIndex]? with
  | some v => if v = 0 then 1 else v
  | none => 1

/-- Model of `getCurrentBidder`: `this.playerIds[this.bidTurnIndex]`
(`none` models the JS `undefined` of an out-of-range index). -/
def getCurrentBidder (g : GameState) : Option String :=
  g.playerIds[g.bidTurnIndex]?

/-- Model of `getCurrentPlayer` from game.ts. -/
def getCurrentPlayer (g : GameState) : Option String :=
  if g.phase ≠ Phase.playing then none
  else g.playerIds[g.playTurnIndex.getD 0]?

/-- Model of `_sumBidsSoFar` from game.ts: sum of the numeric bids of every player
except `excludePid`. -/
def sumBidsSoFar (g : GameState) (excludePid : String) : Int :=
  g.playerIds.foldl
    (fun sum pid =>
      if pid = excludePid then sum
      else match g.bids pid with
        | some (some b) => sum + b
        | _ => sum)
    0

/-- Model of `_minRankForPlayers` from game.ts (`15 - 2 * n`; JS would go negative for
n ≥ 8, but every rank in `RANKS_ASC` is ≥ 2 so truncating at 0 filters the
same cards). -/
def minRankForPlayers (n : Nat) : Nat := 15 - 2 * n

/-- Model of `_createBaseDeck` from game.ts, with the seat count as argument. -/
def createBaseDeck (n : Nat) : Except String (List Card) :=
  let needed := 8 * n
  let minRank := minRankForPlayers n
  let deck := SUITS.flatMap (fun s =>
    (RANKS_ASC.filter (fun r => decide (r ≥ minRank))).map (fun r => Card.mk s r))
  if deck.length ≠ needed then
    Except.error "Deck size mismatch"
  else
    Except.ok deck

/-- Model of `_resetForNextHand` from game.ts. -/
def resetForNextHand (g : GameState) : GameState :=
  let base : GameState :=
    { g with
      phase := Phase.waiting
      trumpSuit := none
      hands := fun _ => none
      bids := fun _ => none
      tricksWon := fun _ => none
      currentTrick := []
      leadSuit := none
      pendingPlayTurnIndex := none }
  { base with
    bids := fun pid => if pid ∈ g.playerIds then some none else none
    tricksWon := fun pid => if pid ∈ g.playerIds then some 0 else none
    hands := fun pid => if pid ∈ g.playerIds then some [] else none }

/-- The hand-sorting comparator of `startHand`:
`a.suit === b.suit ? a.rank - b.rank : a.suit.localeCompare(b.suit)`.
On the one-character suit strings `localeCompare` is lexicographic:
C < D < H < S. -/
def suitSortKey (s : Suit) : Nat :=
  match s with
  | Suit.C => 0
  | Suit.D => 1
  | Suit.H => 2
  | Suit.S => 3

def cardLe (a b : Card) : Bool :=
  if a.suit = b.suit then a.rank ≤ b.rank
  else suitSortKey a.suit < suitSortKey b.suit

def sortCards (l : List Card) : List Card :=
  l.mergeSort (fun a b => cardLe a b)

/-- One iteration of the dealing loop of `startHand`: `deck.pop()` removes the
last element; `if (card) hands[pid].push(card)` skips an exhausted deck. -/
def dealOne (st : (String → Option (List Card)) × List Card) (pid : String) :
    (String → Option (List Card)) × List Card :=
  match st.2.getLast? with
  | none => st
  | some c =>
      (setKey st.1 pid (some ((st.1 pid).getD [] ++ [c])), st.2.dropLast)

/-- The pid sequence of the dealing loop: for i in 0..handSize, for p in
0..numPlayers, `playerIds[(startIndex + p) % numPlayers]`. -/
def dealOrder (g : GameState) (startIndex handSize : Nat) : List String :=
  ((List.range handSize).flatMap (fun _ => List.range (numPlayers g))).map
    (fun p => (g.playerIds[(startIndex + p) % numPlayers g]?).getD "")

/-- Model of `startHand` from game.ts.  `shuffleFn` stands for the `Math.random`
shuffle. -/
def startHand (g : GameState) (shuffleFn : List Card → List Card) :
    Except (String × GameState) GameState :=
  let g0 := resetForNextHand g
  let handSize := currentHandSize g0
  match createBaseDeck (numPlayers g0) with
  | Except.error e => Except.error (e, g0)
  | Except.ok base =>
      let deck := shuffleFn base
      let g1 :=
        if handSize ≠ 8 then
          { g0 with trumpSuit := (deck.head?).map (fun c => c.suit) }
        else g0
      let startIndex := (g1.dealerIndex + 1) % numPlayers g1
      let (hands2, _) := (dealOrder g1 startIndex handSize).foldl dealOne (g1.hands, deck)
      let hands3 := fun pid =>
        if pid ∈ g1.playerIds then some (sortCards ((hands2 pid).getD [])) else hands2 pid
      Except.ok
        { g1 with
          hands := hands3
          bidTurnIndex := startIndex
          phase := if handSize = 8 then Phase.choose_trump else Phase.bidding
          playTurnIndex := none }

/-- Model of `placeBid` from game.ts.  The bid argument is an integer; the JS
`Number.isInteger` guard is absorbed by the type. -/
def placeBid (g : GameState) (pid : String) (bid : Int) :
    Except (String × GameState) GameState :=
  if g.phase ≠ Phase.bidding then Except.error ("Not in bidding phase", g)
  else if getCurrentBidder g ≠ some pid then Except.error ("Not your turn to bid", g)
  else
    let handSize := currentHandSize g
    if bid < 0 ∨ bid > handSize then Except.error ("Bid out of range", g)
    else
      let isDealer := g.playerIds[g.dealerIndex]? = some pid
      if isDealer ∧ bid = (handSize : Int) - sumBidsSoFar g pid then
        Except.error ("Dealer cannot bid to make total bids equal handSize", g)
      else
        let g1 :=
          { g with
            bids := setKey g.bids pid (some (some bid))
            bidTurnIndex := (g.bidTurnIndex + 1) % numPlayers g }
        let allBids := g1.playerIds.all (fun p =>
          match g1.bids p with
          | some (some _) => true
          | _ => false)
        if allBids then
          Except.ok
            { g1 with
              phase := Phase.playing
              playTurnIndex := some ((g1.dealerIndex + 1) % numPlayers g1)
              currentTrick := []
              leadSuit := none }
        else Except.ok g1

/-- Model of `chooseTrump` from game.ts.  The suit argument is the result of reading
the wire value: `none` models a string outside `SUITS`. -/
def chooseTrump (g : GameState) (pid : String) (suit : Option Suit) :
    Except (String × GameState) GameState :=
  if g.phase ≠ Phase.choose_trump then Except.error ("Not in choose trump phase", g)
  else if getCurrentBidder g ≠ some pid then
    Except.error ("Not your turn to choose trump", g)
  else
    match suit with
    | none => Except.error ("Invalid trump suit", g)
    | some s =>
        Except.ok { g with trumpSuit := some s, phase := Phase.bidding }

/-- Model of `_hasSuit` from game.ts. -/
def hasSuit (g : GameState) (pid : String) (suit : Option Suit) : Bool :=
  match suit with
  | none => false
  | some s => ((g.hands pid).getD []).any (fun c => c.suit = s)

/-- The `findIndex`/`splice` pair of `_removeCardFromHand` (the caller has
already checked the card is present). -/
def removeCard (l : List Card) (card : Card) : List Card :=
  match l with
  | [] => []
  | c :: rest => if c = card then rest else c :: removeCard rest card

/-- The trick-resolution loop of `playCard` (lines 344-353). -/
def resolveTrick (trick : List TrickEntry) (leadSuit trumpSuit : Option Suit) :
    Option (String × Card) :=
  match trick with
  | [] => none
  | e0 :: rest =>
      some (rest.foldl
        (fun best e =>
          if compareCards e.card best.2 leadSuit trumpSuit = 1 then (e.pid, e.card)
          else best)
        (e0.pid, e0.card))

/-- The per-seat body of `_scoreHand` (game.ts lines 373-406): given the
seat's bid (flattened: missing key or `null` both give `none`), tricks won,
current score and current streak, return the new score and streak. -/
def seatScoreStep (bid : Option Int) (won : Nat) (sc : Int) (st : Streak) :
    Int × Streak :=
  let success := bid = some (won : Int)
  let sc1 := if success then sc + (5 + (won : Int)) else sc - ((bid.getD 0) - (won : Int)).natAbs
  let outcome := if success then StreakType.plus else StreakType.minus
  let st1 :=
    if st.type = some outcome then { st with count := st.count + 1 }
    else { type := some outcome, count := 1 : Streak }
  if st1.count ≥ 5 then
    (if outcome = StreakType.plus then sc1 + 10 else sc1 - 10,
     { type := none, count := 0 })
  else (sc1, st1)

/-- One loop iteration of `_scoreHand`, acting on the accumulated
scores/streaks records. -/
def scoreStepAcc (g : GameState)
    (acc : (String → Option Int) × (String → Option Streak)) (pid : String) :
    (String → Option Int) × (String → Option Streak) :=
  let bid := (g.bids pid).getD none
  let won := (g.tricksWon pid).getD 0
  let sc := (acc.1 pid).getD 0
  let st := (acc.2 pid).getD { type := none, count := 0 }
  let r := seatScoreStep bid won sc st
  (setKey acc.1 pid (some r.1), setKey acc.2 pid (some r.2))

/-- Model of `_scoreHand` from game.ts: one `seatScoreStep` per player, in seat order. -/
def scoreHand (g : GameState) : GameState :=
  let upd := g.playerIds.foldl (scoreStepAcc g) (g.totalScores, g.streaks)
  { g with totalScores := upd.1, streaks := upd.2 }

/-- Model of `playCard` from game.ts.  `cardOpt` is the result of `stringToCard` on
the wire token (`none` models the parse throwing).  Returns the state, the
`trickEnded` flag and the optional trick winner. -/
def playCard (g : GameState) (pid : String) (cardOpt : Option Card) :
    Except (String × GameState) (GameState × Bool × Option String) :=
  if g.phase ≠ Phase.playing then Except.error ("Not in playing phase", g)
  else if getCurrentPlayer g ≠ some pid then Except.error ("Not your turn", g)
  else
    match cardOpt with
    | none => Except.error ("Invalid card", g)
    | some card =>
        let hand := (g.hands pid).getD []
        if ¬ hand.any (fun c => c.suit = card.suit ∧ c.rank = card.rank) then
          Except.error ("You do not have that card", g)
        else
          let followErr : Option String :=
            if g.currentTrick.length > 0 then
              let mustFollow := hasSuit g pid g.leadSuit
              if mustFollow ∧ some card.suit ≠ g.leadSuit then
                some "You must follow suit"
              else if ¬ mustFollow then
                let mustTrump := g.trumpSuit.isSome ∧ hasSuit g pid g.trumpSuit
                if mustTrump ∧ some card.suit ≠ g.trumpSuit then
                  some "You must play trump if you do not have the lead suit"
                else none
              else none
            else none
          match followErr with
          | some e => Except.error (e, g)
          | none =>
              let g1 :=
                { g with
                  hands := setKey g.hands pid (some (removeCard hand card))
                  leadSuit := if g.currentTrick.length = 0 then some card.suit else g.leadSuit
                  currentTrick := g.currentTrick ++ [{ pid := pid, card := card }] }
              if g1.currentTrick.length < numPlayers g1 then
                let g2 := { g1 with
                  playTurnIndex := some ((g1.playTurnIndex.getD 0 + 1) % numPlayers g1) }
                Except.ok (g2, false, none)
              else
                match resolveTrick g1.currentTrick g1.leadSuit g1.trumpSuit with
                | none => Except.ok (g1, true, none)
                | some (winner, _) =>
                    let g2 := { g1 with
                      tricksWon := setKey g1.tricksWon winner
                        (some ((g1.tricksWon winner).getD 0 + 1)) }
                    let handOver := g2.playerIds.all (fun p => (g2.hands p).getD [] = [])
                    if handOver then
                      let g3 := scoreHand g2
                      let g4 := { g3 with
                        phase := if g3.schedule.length ≤ g3.handIndex + 1
                          then Phase.game_end else Phase.hand_end }
                      Except.ok (g4, true, some winner)
                    else
                      let g3 := { g2 with
                        phase := Phase.trick_pause
                        pendingPlayTurnIndex := g2.playerIds.indexOf? winner }
                      Except.ok (g3, true, some winner)

/-- Model of `nextHand` from game.ts. -/
def nextHand (g : GameState) (shuffleFn : List Card → List Card) :
    Except (String × GameState) GameState :=
  if g.phase ≠ Phase.hand_end then Except.error ("Cannot start next hand now", g)
  else
    startHand
      { g with
        handIndex := g.handIndex + 1
        dealerIndex := (g.dealerIndex + 1) % numPlayers g }
      shuffleFn

/-- Model of `resumeAfterTrick` from game.ts. -/
def resumeAfterTrick (g : GameState) : Except (String × GameState) GameState :=
  if g.phase ≠ Phase.trick_pause then Except.error ("Cannot resume trick now", g)
  else
    Except.ok
      { g with
        currentTrick := []
        leadSuit := none
        playTurnIndex :=
          match g.pendingPlayTurnIndex with
          | some v => some v
          | none => g.playTurnIndex
        pendingPlayTurnIndex := none
        phase := Phase.playing }

/-- Model of `replacePlayerId` from game.ts.  `this.hands[oldId]` is truthy exactly
when the key is present (an array, even empty, is truthy); the other four
record checks use `hasOwnProperty`. -/
def replacePlayerId (g : GameState) (oldId newId : String) : GameState :=
  if oldId = newId then g
  else
    match g.playerIds.indexOf? oldId with
    | none => g
    | some idx =>
        let g1 := { g with playerIds := g.playerIds.set idx newId }
        let g2 :=
          if (g1.hands oldId).isSome then
            { g1 with hands := setKey (setKey g1.hands newId (g1.hands oldId)) oldId none }
          else g1
        let g3 :=
          if (g2.bids oldId).isSome then
            { g2 with bids := setKey (setKey g2.bids newId (g2.bids oldId)) oldId none }
          else g2
        let g4 :=
          if (g3.tricksWon oldId).isSome then
            { g3 with tricksWon :=
                setKey (setKey g3.tricksWon newId (g3.tricksWon oldId)) oldId none }
          else g3
        let g5 :=
          if (g4.totalScores oldId).isSome then
            { g4 with totalScores :=
                setKey (setKey g4.totalScores newId (g4.totalScores oldId)) oldId none }
          else g4
        let g6 :=
          if (g5.streaks oldId).isSome then
            { g5 with streaks :=
                setKey (setKey g5.streaks newId (g5.streaks oldId)) oldId none }
          else g5
        { g6 with
          currentTrick := g6.currentTrick.map (fun t =>
            if t.pid = oldId then { t with pid := newId } else t) }

/-- JS `Array.prototype.map` with the element index (second callback
argument), as used by `buildHandsViewFor`. -/
def mapWithIndex {α β : Type} (f : Nat → α → β) : Nat → List α → List β
  | _, [] => []
  | i, a :: as => f i a :: mapWithIndex f (i + 1) as

/-- Model of `buildHandsViewFor` from server.ts, on the room's active game (the
`!room.game` early-out returns an empty record and is outside every claim). -/
def buildHandsViewFor (g : GameState) (viewerId : String) :
    List (String × List String) :=
  g.playerIds.map (fun pid =>
    let real := ((g.hands pid).getD []).map cardToString
    if pid = viewerId then
      if g.phase = Phase.choose_trump ∧ currentHandSize g = 8
          ∧ getCurrentBidder g = some pid then
        (pid, mapWithIndex (fun idx c => if idx < 5 then c else "HIDDEN") 0 real)
      else (pid, real)
    else (pid, real.map (fun _ => "HIDDEN")))

/-- The card choice of the automated-player policy in the `playing` branch of
`maybeBotAct` (server.ts lines 242-253). -/
def botChooseCard (g : GameState) (pid : String) : Option Card :=
  let hand := (g.hands pid).getD []
  if g.currentTrick.length = 0 then hand.head?
  else
    let sameSuit := hand.filter (fun c => some c.suit = g.leadSuit)
    if sameSuit.length ≠ 0 then sameSuit.head? else hand.head?

/-! ### Helpers for stating results about `Except` values -/

def exOk {ε α : Type} : Except ε α → Bool
  | Except.ok _ => true
  | Except.error _ => false

def errMsgOf {α : Type} : Except (String × GameState) α → Option String
  | Except.error (m, _) => some m
  | Except.ok _ => none

def errStateOf {α : Type} : Except (String × GameState) α → Option GameState
  | Except.error (_, s) => some s
  | Except.ok _ => none

/-! ### C9 — base-deck construction -/

/-- Shared helper: for any seat count up to 6 the base deck builds without
error. -/
theorem createBaseDeck_ok (n : Nat) (h : n ≤ 6) : exOk (createBaseDeck n) = true := by
  interval_cases n <;> decide

/-- C9 counterexample: the claim says base-deck construction fails for every
seat count outside 3..6, but for n = 2 (outside 3..6) `_createBaseDeck`
succeeds, producing the 16 cards of ranks 11..14. -/
theorem c9_counterexample :
    ¬ (3 ≤ 2 ∧ 2 ≤ 6)
      ∧ exOk (createBaseDeck 2) = true
      ∧ ((createBaseDeck 2).toOption.getD []).length = 16 := by
  decide

/-- C9 (amended): base-deck construction for seat count n succeeds for every
n ≤ 6 (in particular for every n ∈ {3,4,5,6}), producing exactly 8n unique
cards with 2n per suit and minimum rank 15−2n; it fails with the
deck-size-mismatch error exactly for n ≥ 7. -/
theorem c9_amended (n : Nat) :
    (n ≤ 6 →
      exOk (createBaseDeck n) = true
        ∧ ((createBaseDeck n).toOption.getD []).length = 8 * n
        ∧ ((createBaseDeck n).toOption.getD []).Nodup
        ∧ (∀ s : Suit,
            (((createBaseDeck n).toOption.getD []).filter
              (fun c => c.suit = s)).length = 2 * n)
        ∧ (∀ c ∈ (createBaseDeck n).toOption.getD [], minRankForPlayers n ≤ c.rank)
        ∧ (1 ≤ n → ∃ c ∈ (createBaseDeck n).toOption.getD [],
            c.rank = minRankForPlayers n))
    ∧ (7 ≤ n → createBaseDeck n = Except.error "Deck size mismatch") := by
  constructor
  · intro h6
    interval_cases n <;>
      exact ⟨by decide, by decide, by decide, fun s => by cases s <;> decide,
        by decide, by decide⟩
  · intro h7
    have hfil : RANKS_ASC.filter (fun r => decide (r ≥ minRankForPlayers n))
        = RANKS_ASC := by
      apply List.filter_eq_self.mpr
      intro a ha
      have h2 : 2 ≤ a := by fin_cases ha <;> norm_num
      have hm : minRankForPlayers n ≤ 2 := by unfold minRankForPlayers; omega
      simp only [decide_eq_true_eq, ge_iff_le]
      omega
    have hlen : (SUITS.flatMap (fun s => RANKS_ASC.map (fun r => Card.mk s r))).length
        = 52 := by decide
    simp only [createBaseDeck, hfil]
    rw [hlen, if_pos (by omega : (52 : Nat) ≠ 8 * n)]

/-- C9 witness: the amended theorem evaluated at the concrete seat count 4. -/
theorem c9_witness :
    exOk (createBaseDeck 4) = true ∧ createBaseDeck 10 = Except.error "Deck size mismatch" :=
  ⟨(c9_amended 4).1 (by norm_num) |>.1, (c9_amended 10).2 (by norm_num)⟩

/-! ### C10 — replacePlayerId silent no-op cases -/

/-- C10: calling `replacePlayerId` with an oldId that does not occur in the
seat list, or with oldId equal to newId, returns the session state completely
unchanged and raises no error. -/
theorem c10_replacePlayerId_noop (g : GameState) (oldId newId : String)
    (h : oldId ∉ g.playerIds ∨ oldId = newId) :
    replacePlayerId g oldId newId = g := by
  unfold replacePlayerId
  by_cases he : oldId = newId
  · simp [he]
  · rcases h with hmem | hid
    · have hnone : g.playerIds.indexOf? oldId = none := by
        rw [List.indexOf?_eq_none_iff]
        intro x hx
        simp only [beq_iff_eq]
        intro hxa
        exact hmem (hxa ▸ hx)
      simp [he, hnone]
    · exact absurd hid he

def gC10 : GameState :=
  { playerIds := ["A", "B", "C"]
    dealerIndex := 0
    schedule := buildSchedule 3
    handIndex := 0
    totalScores := fun p => if p ∈ ["A", "B", "C"] then some 0 else none
    streaks := fun p => if p ∈ ["A", "B", "C"] then some { type := none, count := 0 } else none
    phase := Phase.bidding
    trumpSuit := some Suit.H
    hands := fun p => if p ∈ ["A", "B", "C"] then some [Card.mk Suit.S 9] else none
    bids := fun p => if p ∈ ["A", "B", "C"] then some none else none
    tricksWon := fun p => if p ∈ ["A", "B", "C"] then some 0 else none
    currentTrick := []
    leadSuit := none
    pendingPlayTurnIndex := none
    bidTurnIndex := 1
    playTurnIndex := none }

/-- C10 witness: replacing an identity that holds no seat is a no-op on a
concrete session state. -/
theorem c10_witness : replacePlayerId gC10 "Z" "B" = gC10 :=
  c10_replacePlayerId_noop gC10 "Z" "B" (Or.inl (by decide))

/-! ### C2 — dealer hook rule -/

/-- C2: in the bidding phase, when the dealer seat holds the bid turn and the
submitted bid is in range, `placeBid` rejects exactly the bid equal to
handSize minus the sum of the bids already recorded by the other seats, and a
rejected bid leaves the state (hence the recorded bids) unchanged. -/
theorem c2_dealer_hook (g : GameState) (pid : String) (bid : Int)
    (hph : g.phase = Phase.bidding)
    (hturn : getCurrentBidder g = some pid)
    (hdealer : g.playerIds[g.dealerIndex]? = some pid)
    (hlo : 0 ≤ bid) (hhi : bid ≤ (currentHandSize g : Int)) :
    ((∃ m s', placeBid g pid bid = Except.error (m, s'))
        ↔ bid = (currentHandSize g : Int) - sumBidsSoFar g pid)
      ∧ ∀ m s', placeBid g pid bid = Except.error (m, s') → s' = g := by
  have h1 : ¬ (g.phase ≠ Phase.bidding) := by simp [hph]
  have h2 : ¬ (getCurrentBidder g ≠ some pid) := by simp [hturn]
  have h3 : ¬ (bid < 0 ∨ bid > (currentHandSize g : Int)) := by
    push_neg
    exact ⟨hlo, hhi⟩
  simp only [placeBid]
  rw [if_neg h1, if_neg h2, if_neg h3]
  by_cases hb : bid = (currentHandSize g : Int) - sumBidsSoFar g pid
  · rw [if_pos ⟨hdealer, hb⟩]
    refine ⟨⟨fun _ => hb, fun _ => ⟨_, _, rfl⟩⟩, ?_⟩
    intro m s' h
    simp only [Except.error.injEq, Prod.mk.injEq] at h
    exact h.2.symm
  · rw [if_neg (fun hc => hb hc.2)]
    refine ⟨⟨?_, fun hb' => absurd hb' hb⟩, ?_⟩
    · rintro ⟨m, s', hms⟩
      split at hms <;> simp at hms
    · intro m s' hms
      split at hms <;> simp at hms

def gC2 : GameState :=
  { playerIds := ["A", "B", "C"]
    dealerIndex := 0
    schedule := [1]
    handIndex := 0
    totalScores := fun _ => some 0
    streaks := fun _ => some { type := none, count := 0 }
    phase := Phase.bidding
    trumpSuit := some Suit.H
    hands := fun _ => some []
    bids := fun p => if p = "B" then some (some 0) else if p = "C" then some (some 1) else some none
    tricksWon := fun _ => some 0
    currentTrick := []
    leadSuit := none
    pendingPlayTurnIndex := none
    bidTurnIndex := 0
    playTurnIndex := none }

/-- C2 witness: in a concrete 1-card hand where the other seats bid 0 and 1,
the dealer's bid of 0 (= 1 − 1) is rejected with the state unchanged. -/
theorem c2_witness : errStateOf (placeBid gC2 "A" 0) = some gC2 := by
  obtain ⟨m, s', heq⟩ :=
    (c2_dealer_hook gC2 "A" 0 rfl (by decide) (by decide) (by decide) (by decide)).1.mpr
      (by decide)
  have hs := (c2_dealer_hook gC2 "A" 0 rfl (by decide) (by decide) (by decide)
    (by decide)).2 m s' heq
  rw [heq, hs]
  rfl

/-! ### Lookup lemmas for `scoreHand` -/

theorem scoreStepAcc_other (g : GameState) (acc : (String → Option Int) × (String → Option Streak))
    (pid k : String) (h : k ≠ pid) :
    (scoreStepAcc g acc pid).1 k = acc.1 k ∧ (scoreStepAcc g acc pid).2 k = acc.2 k := by
  simp [scoreStepAcc, setKey, h]

theorem foldl_scoreStepAcc_not_mem (g : GameState) (l : List String) (k : String)
    (h : k ∉ l) :
    ∀ acc, (l.foldl (scoreStepAcc g) acc).1 k = acc.1 k
      ∧ (l.foldl (scoreStepAcc g) acc).2 k = acc.2 k := by
  induction l with
  | nil => exact fun acc => ⟨rfl, rfl⟩
  | cons p t ih =>
    intro acc
    have hk : k ∉ t := fun hm => h (List.mem_cons_of_mem _ hm)
    have hne : k ≠ p := fun he => h (by simp [he])
    obtain ⟨h1, h2⟩ := ih hk (scoreStepAcc g acc p)
    obtain ⟨h3, h4⟩ := scoreStepAcc_other g acc p k hne
    simp only [List.foldl_cons]
    exact ⟨h1.trans h3, h2.trans h4⟩

/-- The per-seat result of `_scoreHand`: with no duplicate seat identities,
seat `pid`'s score and streak after a hand are exactly `seatScoreStep` applied
to its bid, tricks won, score and streak. -/
theorem scoreHand_lookup (g : GameState) (pid : String) (hmem : pid ∈ g.playerIds)
    (hnd : g.playerIds.Nodup) :
    (scoreHand g).totalScores pid = some (seatScoreStep ((g.bids pid).getD none)
        ((g.tricksWon pid).getD 0) ((g.totalScores pid).getD 0)
        ((g.streaks pid).getD { type := none, count := 0 })).1
      ∧ (scoreHand g).streaks pid = some (seatScoreStep ((g.bids pid).getD none)
        ((g.tricksWon pid).getD 0) ((g.totalScores pid).getD 0)
        ((g.streaks pid).getD { type := none, count := 0 })).2 := by
  obtain ⟨l1, l2, hsplit⟩ := List.append_of_mem hmem
  rw [hsplit, List.nodup_append] at hnd
  obtain ⟨hn1, hn2, hdisj⟩ := hnd
  have hpid1 : pid ∉ l1 := fun hm => hdisj hm (by simp)
  have hpid2 : pid ∉ l2 := (List.nodup_cons.mp hn2).1
  simp only [scoreHand, hsplit, List.foldl_append, List.foldl_cons]
  obtain ⟨ha1, ha2⟩ := foldl_scoreStepAcc_not_mem g l1 pid hpid1 (g.totalScores, g.streaks)
  obtain ⟨hb1, hb2⟩ := foldl_scoreStepAcc_not_mem g l2 pid hpid2
    (scoreStepAcc g (l1.foldl (scoreStepAcc g) (g.totalScores, g.streaks)) pid)
  rw [hb1, hb2]
  simp only [scoreStepAcc, setKey, if_pos rfl, ha1, ha2]
  exact ⟨rfl, rfl⟩

/-! ### C7 — per-hand scoring delta -/

/-- When the updated streak count stays below 5, the score produced by one
`_scoreHand` seat body is the pure bid-scoring delta. -/
theorem seatScoreStep_fst_no_streak (bid : Option Int) (won : Nat) (sc : Int) (st : Streak)
    (h : (if st.type = some (if bid = some (won : Int) then StreakType.plus
        else StreakType.minus) then st.count + 1 else 1) < 5) :
    (seatScoreStep bid won sc st).1 =
      sc + (if bid = some (won : Int) then 5 + (won : Int)
            else -((((bid.getD 0) - (won : Int)).natAbs : Int))) := by
  simp only [seatScoreStep]
  split_ifs at * <;> simp_all <;> omega

def gC7 : GameState :=
  { playerIds := ["A", "B", "C"]
    dealerIndex := 0
    schedule := [3]
    handIndex := 0
    totalScores := fun _ => some 0
    streaks := fun p => if p = "A" then some { type := some StreakType.plus, count := 4 }
      else some { type := none, count := 0 }
    phase := Phase.playing
    trumpSuit := some Suit.H
    hands := fun _ => some []
    bids := fun p => if p = "A" then some (some 3) else some (some 0)
    tricksWon := fun p => if p = "A" then some 3 else some 0
    currentTrick := []
    leadSuit := none
    pendingPlayTurnIndex := none
    bidTurnIndex := 0
    playTurnIndex := some 0 }

/-- C7 counterexample: seat A bids 3 in a 3-card hand and wins exactly 3
tricks, but because this hand also completes A's fifth consecutive success,
`_scoreHand` moves A's score by +18 (= 5+3+10), not by exactly +8 as the
claim states. -/
theorem c7_counterexample :
    (scoreHand gC7).totalScores "A" = some 18 ∧ ((18 : Int) ≠ 0 + (5 + 3)) := by
  constructor
  · decide
  · decide

/-- C7 (amended): when a hand completes, for each seat whose streak does not
reach length 5 on this hand, the cumulative score changes by exactly
5 + tricksWon on an exact bid and by −|bid − tricksWon| otherwise (on a
streak-completing hand the flat ±10 streak adjustment of C8 is added on top).
In particular a seat bidding 3, winning 3, with no completing streak, gains
exactly +8. -/
theorem c7_amended (g : GameState) (pid : String) (hmem : pid ∈ g.playerIds)
    (hnd : g.playerIds.Nodup)
    (hns : (if ((g.streaks pid).getD { type := none, count := 0 }).type =
        some (if (g.bids pid).getD none = some (((g.tricksWon pid).getD 0 : Nat) : Int)
          then StreakType.plus else StreakType.minus)
        then ((g.streaks pid).getD { type := none, count := 0 }).count + 1 else 1) < 5) :
    (scoreHand g).totalScores pid =
      some ((g.totalScores pid).getD 0 +
        (if (g.bids pid).getD none = some (((g.tricksWon pid).getD 0 : Nat) : Int)
         then 5 + (((g.tricksWon pid).getD 0 : Nat) : Int)
         else -((((((g.bids pid).getD none).getD 0) -
            (((g.tricksWon pid).getD 0 : Nat) : Int)).natAbs : Int)))) := by
  rw [(scoreHand_lookup g pid hmem hnd).1,
    seatScoreStep_fst_no_streak _ _ _ _ hns]

def gC7w : GameState :=
  { gC7 with streaks := fun _ => some { type := none, count := 0 } }

/-- C7 witness: on a concrete state where seat A bids 3, wins 3 and has no
running streak, the hand yields exactly +8. -/
theorem c7_witness : (scoreHand gC7w).totalScores "A" = some 8 := by
  have h := c7_amended gC7w "A" (by decide) (by decide) (by decide)
  exact h.trans (by decide)

/-! ### C8 — streak update and one-shot bonus -/

/-- C8: (a) the per-hand streak update of `_scoreHand` increments the count
when the outcome matches the streak type and otherwise restarts it at
{outcome, 1}; when the updated count reaches 5 a single flat +10 / −10
adjustment is applied and the streak resets to {none, 0}.  (b) Five
consecutive exactly-bid hands starting from an empty streak add the five
bid-scoring deltas plus exactly one +10 bonus and leave the streak at
{none, 0}. -/
theorem c8_streak (bid : Option Int) (won : Nat) (sc : Int) (st : Streak)
    (h : st.count < 5) :
    (seatScoreStep bid won sc st =
      (let success := bid = some (won : Int)
       let outcome := if success then StreakType.plus else StreakType.minus
       let base := if success then sc + (5 + (won : Int))
         else sc - (((bid.getD 0) - (won : Int)).natAbs : Int)
       let pre := if st.type = some outcome then st.count + 1 else 1
       (if pre = 5 then (if success then base + 10 else base - 10) else base,
        if pre = 5 then { type := none, count := 0 }
        else { type := some outcome, count := pre })))
    ∧ ∀ (sc0 : Int) (w1 w2 w3 w4 w5 : Nat),
        (let r1 := seatScoreStep (some (w1 : Int)) w1 sc0 { type := none, count := 0 }
         let r2 := seatScoreStep (some (w2 : Int)) w2 r1.1 r1.2
         let r3 := seatScoreStep (some (w3 : Int)) w3 r2.1 r2.2
         let r4 := seatScoreStep (some (w4 : Int)) w4 r3.1 r3.2
         let r5 := seatScoreStep (some (w5 : Int)) w5 r4.1 r4.2
         r5 = (sc0 + (5 + (w1 : Int)) + (5 + (w2 : Int)) + (5 + (w3 : Int))
            + (5 + (w4 : Int)) + (5 + (w5 : Int)) + 10,
          { type := none, count := 0 })) := by
  constructor
  · simp only [seatScoreStep]
    split_ifs <;> simp_all <;> omega
  · intro sc0 w1 w2 w3 w4 w5
    simp [seatScoreStep]

/-- C8 witness: a fifth consecutive success (streak {+,4}, exact bid of 2)
yields 5+2 = 7 plus the single +10 bonus and resets the streak. -/
theorem c8_witness :
    seatScoreStep (some 2) 2 0 { type := some StreakType.plus, count := 4 }
      = (17, { type := none, count := 0 }) := by
  have h := (c8_streak (some 2) 2 0 { type := some StreakType.plus, count := 4 }
    (by decide)).1
  exact h.trans (by decide)

/-! ### C4 — privacy projection -/

theorem mapWithIndex_hide_of_length8 (l : List String) (h : l.length = 8) :
    mapWithIndex (fun idx c => if idx < 5 then c else "HIDDEN") 0 l
      = l.take 5 ++ ["HIDDEN", "HIDDEN", "HIDDEN"] := by
  match l, h with
  | [x1, x2, x3, x4, x5, x6, x7, x8], _ => rfl

/-- C4: in the per-viewer projection every other seat's hand is replaced by
placeholders of matching count; the viewer's own hand is shown in full,
except that during `choose_trump` of an 8-card hand the acting seat sees
exactly its first five cards in the clear and three placeholders. -/
theorem c4_privacy (g : GameState) (v : String)
    (h8 : g.phase = Phase.choose_trump → currentHandSize g = 8 →
      getCurrentBidder g = some v → ((g.hands v).getD []).length = 8) :
    buildHandsViewFor g v = g.playerIds.map (fun pid =>
      if pid = v then
        if g.phase = Phase.choose_trump ∧ currentHandSize g = 8
            ∧ getCurrentBidder g = some pid then
          (pid, (((g.hands pid).getD []).take 5).map cardToString
            ++ ["HIDDEN", "HIDDEN", "HIDDEN"])
        else (pid, ((g.hands pid).getD []).map cardToString)
      else (pid, List.replicate ((g.hands pid).getD []).length "HIDDEN")) := by
  simp only [buildHandsViewFor]
  apply List.map_congr_left
  intro pid _
  by_cases hv : pid = v
  · subst hv
    rw [if_pos rfl, if_pos rfl]
    by_cases hcond : g.phase = Phase.choose_trump ∧ currentHandSize g = 8
        ∧ getCurrentBidder g = some pid
    · rw [if_pos hcond, if_pos hcond]
      have hlen : (((g.hands pid).getD []).map cardToString).length = 8 := by
        rw [List.length_map]
        exact h8 hcond.1 hcond.2.1 hcond.2.2
      rw [mapWithIndex_hide_of_length8 _ hlen]
      rw [List.map_take]
    · rw [if_neg hcond, if_neg hcond]
  · rw [if_neg hv, if_neg hv]
    rw [List.map_map]
    simp [Function.comp_def]

def gC4 : GameState :=
  { playerIds := ["A", "B"]
    dealerIndex := 1
    schedule := [8]
    handIndex := 0
    totalScores := fun _ => some 0
    streaks := fun _ => some { type := none, count := 0 }
    phase := Phase.choose_trump
    trumpSuit := none
    hands := fun p =>
      if p = "A" then
        some [Card.mk Suit.C 7, Card.mk Suit.C 9, Card.mk Suit.D 8, Card.mk Suit.H 10,
          Card.mk Suit.H 12, Card.mk Suit.S 7, Card.mk Suit.S 11, Card.mk Suit.S 14]
      else if p = "B" then
        some [Card.mk Suit.C 8, Card.mk Suit.C 10, Card.mk Suit.D 7, Card.mk Suit.D 9,
          Card.mk Suit.H 7, Card.mk Suit.H 14, Card.mk Suit.S 8, Card.mk Suit.S 12]
      else none
    bids := fun _ => some none
    tricksWon := fun _ => some 0
    currentTrick := []
    leadSuit := none
    pendingPlayTurnIndex := none
    bidTurnIndex := 0
    playTurnIndex := none }

/-- C4 witness: the acting trump-chooser of a concrete 8-card hand sees its
first five cards and three placeholders; the other seat is fully hidden. -/
theorem c4_witness :
    buildHandsViewFor gC4 "A" =
      [("A", ["7C", "9C", "8D", "10H", "QH", "HIDDEN", "HIDDEN", "HIDDEN"]),
       ("B", ["HIDDEN", "HIDDEN", "HIDDEN", "HIDDEN", "HIDDEN", "HIDDEN", "HIDDEN", "HIDDEN"])] := by
  have h := c4_privacy gC4 "A" (fun _ _ _ => by decide)
  exact h.trans (by decide)


/-! ### C5 — reconnection identity re-keying -/

theorem indexOf?_set_eq_map (l : List String) (a : String) (hnd : l.Nodup)
    (hmem : a ∈ l) :
    ∃ i, l.indexOf? a = some i
      ∧ ∀ b, l.set i b = l.map (fun p => if p = a then b else p) := by
  induction l with
  | nil => cases hmem
  | cons x t ih =>
    rw [List.nodup_cons] at hnd
    by_cases hx : x = a
    · subst hx
      refine ⟨0, ?_, ?_⟩
      · rw [List.indexOf?_cons]
        simp
      · intro b
        have ht : t.map (fun p => if p = x then b else p) = t := by
          refine (List.map_congr_left ?_).trans (List.map_id t)
          intro p hp
          have hpx : p ≠ x := fun he => hnd.1 (he ▸ hp)
          simp [hpx]
        simp [ht]
    · have hmt : a ∈ t := by
        rcases List.mem_cons.mp hmem with h | h
        · exact absurd h.symm hx
        · exact h
      obtain ⟨i, hi, hset⟩ := ih hnd.2 hmt
      refine ⟨i + 1, ?_, ?_⟩
      · rw [List.indexOf?_cons]
        simp [hx, hi]
      · intro b
        rw [List.set_cons_succ, List.map_cons, hset b, if_neg hx]

/-- Closed form of `replacePlayerId` in the successful (re-keying) case. -/
theorem replacePlayerId_closed (g : GameState) (oldId newId : String) (i : Nat)
    (hne : oldId ≠ newId) (hi : g.playerIds.indexOf? oldId = some i)
    (hh : (g.hands oldId).isSome) (hb : (g.bids oldId).isSome)
    (ht : (g.tricksWon oldId).isSome) (hs : (g.totalScores oldId).isSome)
    (hst : (g.streaks oldId).isSome) :
    replacePlayerId g oldId newId =
      { g with
        playerIds := g.playerIds.set i newId
        hands := setKey (setKey g.hands newId (g.hands oldId)) oldId none
        bids := setKey (setKey g.bids newId (g.bids oldId)) oldId none
        tricksWon := setKey (setKey g.tricksWon newId (g.tricksWon oldId)) oldId none
        totalScores := setKey (setKey g.totalScores newId (g.totalScores oldId)) oldId none
        streaks := setKey (setKey g.streaks newId (g.streaks oldId)) oldId none
        currentTrick := g.currentTrick.map (fun t =>
          if t.pid = oldId then { t with pid := newId } else t) } := by
  simp [replacePlayerId, hne, hi, hh, hb, ht, hs, hst]

/-- C5: replacing a seated oldId by a new identity re-keys the hand, bid,
tricks-won, score, streak, current-trick entries and the seat-list slot with
values unchanged, leaves every key other than oldId/newId and every other
field unchanged, and leaves no session structure keyed by oldId. -/
theorem c5_rekey (g : GameState) (oldId newId : String)
    (hne : oldId ≠ newId) (hmem : oldId ∈ g.playerIds) (hnd : g.playerIds.Nodup)
    (hh : (g.hands oldId).isSome) (hb : (g.bids oldId).isSome)
    (ht : (g.tricksWon oldId).isSome) (hs : (g.totalScores oldId).isSome)
    (hst : (g.streaks oldId).isSome) :
    ((replacePlayerId g oldId newId).hands newId = g.hands oldId
      ∧ (replacePlayerId g oldId newId).bids newId = g.bids oldId
      ∧ (replacePlayerId g oldId newId).tricksWon newId = g.tricksWon oldId
      ∧ (replacePlayerId g oldId newId).totalScores newId = g.totalScores oldId
      ∧ (replacePlayerId g oldId newId).streaks newId = g.streaks oldId)
    ∧ ((replacePlayerId g oldId newId).hands oldId = none
      ∧ (replacePlayerId g oldId newId).bids oldId = none
      ∧ (replacePlayerId g oldId newId).tricksWon oldId = none
      ∧ (replacePlayerId g oldId newId).totalScores oldId = none
      ∧ (replacePlayerId g oldId newId).streaks oldId = none
      ∧ oldId ∉ (replacePlayerId g oldId newId).playerIds)
    ∧ (∀ k, k ≠ oldId → k ≠ newId →
        (replacePlayerId g oldId newId).hands k = g.hands k
        ∧ (replacePlayerId g oldId newId).bids k = g.bids k
        ∧ (replacePlayerId g oldId newId).tricksWon k = g.tricksWon k
        ∧ (replacePlayerId g oldId newId).totalScores k = g.totalScores k
        ∧ (replacePlayerId g oldId newId).streaks k = g.streaks k)
    ∧ (replacePlayerId g oldId newId).playerIds
        = g.playerIds.map (fun p => if p = oldId then newId else p)
    ∧ (replacePlayerId g oldId newId).currentTrick
        = g.currentTrick.map (fun t => if t.pid = oldId then { t with pid := newId } else t)
    ∧ (replacePlayerId g oldId newId).phase = g.phase
    ∧ (replacePlayerId g oldId newId).trumpSuit = g.trumpSuit
    ∧ (replacePlayerId g oldId newId).leadSuit = g.leadSuit
    ∧ (replacePlayerId g oldId newId).dealerIndex = g.dealerIndex
    ∧ (replacePlayerId g oldId newId).bidTurnIndex = g.bidTurnIndex
    ∧ (replacePlayerId g oldId newId).playTurnIndex = g.playTurnIndex
    ∧ (replacePlayerId g oldId newId).pendingPlayTurnIndex = g.pendingPlayTurnIndex
    ∧ (replacePlayerId g oldId newId).handIndex = g.handIndex
    ∧ (replacePlayerId g oldId newId).schedule = g.schedule := by
  obtain ⟨i, hi, hset⟩ := indexOf?_set_eq_map g.playerIds oldId hnd hmem
  rw [replacePlayerId_closed g oldId newId i hne hi hh hb ht hs hst]
  have hne' : newId ≠ oldId := Ne.symm hne
  have hplayers : (g.playerIds.set i newId)
      = g.playerIds.map (fun p => if p = oldId then newId else p) := hset newId
  have hnotmem : oldId ∉ g.playerIds.map (fun p => if p = oldId then newId else p) := by
    intro hmm
    rcases List.mem_map.mp hmm with ⟨p, hp, hep⟩
    by_cases hpo : p = oldId
    · rw [if_pos hpo] at hep
      exact hne hep.symm
    · rw [if_neg hpo] at hep
      exact hpo hep
  refine ⟨⟨?_, ?_, ?_, ?_, ?_⟩, ⟨?_, ?_, ?_, ?_, ?_, ?_⟩, ?_, ?_, ?_, rfl, rfl, rfl,
    rfl, rfl, rfl, rfl, rfl, rfl⟩
  · simp [setKey, hne']
  · simp [setKey, hne']
  · simp [setKey, hne']
  · simp [setKey, hne']
  · simp [setKey, hne']
  · simp [setKey]
  · simp [setKey]
  · simp [setKey]
  · simp [setKey]
  · simp [setKey]
  · simpa [hplayers] using hnotmem
  · intro k h1 h2
    refine ⟨?_, ?_, ?_, ?_, ?_⟩ <;> simp [setKey, h1, h2]
  · exact hplayers
  · rfl

/-- C5 witness: on a concrete mid-match state, re-keying seat A to the fresh
identity Z moves A's hand to Z, clears key A, and rewrites the seat slot in
place. -/
theorem c5_witness :
    (replacePlayerId gC10 "A" "Z").hands "Z" = gC10.hands "A"
      ∧ (replacePlayerId gC10 "A" "Z").hands "A" = none
      ∧ (replacePlayerId gC10 "A" "Z").playerIds = ["Z", "B", "C"] := by
  have h := c5_rekey gC10 "A" "Z" (by decide) (by decide) (by decide) (by decide)
    (by decide) (by decide) (by decide) (by decide)
  exact ⟨h.1.1, h.2.1.1, h.2.2.2.1.trans (by decide)⟩

/-! ### C6 — automated-player card choice -/

def gC6 : GameState :=
  { playerIds := ["A", "bot", "B"]
    dealerIndex := 2
    schedule := [2]
    handIndex := 0
    totalScores := fun _ => some 0
    streaks := fun _ => some { type := none, count := 0 }
    phase := Phase.playing
    trumpSuit := some Suit.S
    hands := fun p =>
      if p = "A" then some [Card.mk Suit.D 5]
      else if p = "bot" then some [Card.mk Suit.C 9, Card.mk Suit.S 9]
      else if p = "B" then some [Card.mk Suit.H 4, Card.mk Suit.C 2]
      else none
    bids := fun _ => some (some 1)
    tricksWon := fun _ => some 0
    currentTrick := [{ pid := "A", card := Card.mk Suit.H 14 }]
    leadSuit := some Suit.H
    pendingPlayTurnIndex := none
    bidTurnIndex := 0
    playTurnIndex := some 1 }

/-- C6: on a reachable playing-phase state where the automated seat is void
in the lead suit (hearts) but holds a trump (spades), the policy picks its
first card 9C — which the engine's own §4.4 legality check rejects with the
must-play-trump error — even though the legal lowest card 9S is available and
accepted.  The policy comment says it chooses the lowest valid card; the
submitted card is invalid, the thrown rejection is swallowed, and the seat
never acts. -/
theorem c6_bot_plays_illegal_card :
    botChooseCard gC6 "bot" = some (Card.mk Suit.C 9)
      ∧ errMsgOf (playCard gC6 "bot" (some (Card.mk Suit.C 9)))
          = some "You must play trump if you do not have the lead suit"
      ∧ exOk (playCard gC6 "bot" (some (Card.mk Suit.S 9))) = true := by
  refine ⟨by decide, by decide, by decide⟩

/-! ### C1 — rejected actions mutate nothing -/

theorem createBaseDeck_ok_exists (n : Nat) (h : n ≤ 6) :
    ∃ d, createBaseDeck n = Except.ok d := by
  interval_cases n <;> exact ⟨_, rfl⟩

theorem ite_ok_ne_error {ε α : Type} (c : Prop) [Decidable c] (a b : α) (e : ε) :
    (if c then Except.ok a else Except.ok b) ≠ Except.error e := by
  split <;> simp

/-- C1: on any session state with a legal seat count (3..6, an invariant of
every reachable session), every rejection raised by `placeBid`,
`chooseTrump`, `playCard`, `nextHand` or `resumeAfterTrick` is thrown before
any field is written: the state carried at the throw is exactly the state
before the call. -/
theorem c1_atomicity (g : GameState)
    (hn : 3 ≤ numPlayers g ∧ numPlayers g ≤ 6) :
    (∀ pid bid m s', placeBid g pid bid = Except.error (m, s') → s' = g)
    ∧ (∀ pid suit m s', chooseTrump g pid suit = Except.error (m, s') → s' = g)
    ∧ (∀ pid cardOpt m s', playCard g pid cardOpt = Except.error (m, s') → s' = g)
    ∧ (∀ shuffleFn m s', nextHand g shuffleFn = Except.error (m, s') → s' = g)
    ∧ (∀ m s', resumeAfterTrick g = Except.error (m, s') → s' = g) := by
  refine ⟨?_, ?_, ?_, ?_, ?_⟩
  · intro pid bid m s' h
    simp only [placeBid] at h
    split_ifs at h <;> simp_all
  · intro pid suit m s' h
    rcases suit with _ | s
    all_goals simp only [chooseTrump] at h
    all_goals split_ifs at h <;> simp_all
  · intro pid cardOpt m s' h
    rcases cardOpt with _ | card
    all_goals simp only [playCard] at h
    all_goals repeat' split at h
    all_goals simp_all [numPlayers, ite_ok_ne_error]
  · intro shuffleFn m s' h
    simp only [nextHand] at h
    split_ifs at h with hph
    · simp_all
    · simp only [startHand] at h
      split at h
      · rename_i e heq
        obtain ⟨d, hd⟩ := createBaseDeck_ok_exists (numPlayers g) hn.2
        have h2 : createBaseDeck (numPlayers g) = Except.error e := heq
        rw [hd] at h2
        cases h2
      · repeat' split at h
        all_goals simp_all
  · intro m s' h
    simp only [resumeAfterTrick] at h
    split_ifs at h <;> simp_all

/-- C1 witness: on a concrete 3-seat bidding-phase state, a play attempt is
rejected (phase violation) and the state carried by the rejection is exactly
the original state. -/
theorem c1_witness : errStateOf (playCard gC10 "A" none) = some gC10 := by
  have he : playCard gC10 "A" none = Except.error ("Not in playing phase", gC10) := rfl
  have hs := (c1_atomicity gC10 ⟨by decide, by decide⟩).2.2.1 "A" none
    "Not in playing phase" gC10 he
  rw [he]
  rfl

/-! ### C3 — trick comparison and winner -/

/-- A card that follows the lead suit or is a trump. -/
def leadOrTrump (leadSuit trumpSuit : Option Suit) (c : Card) : Prop :=
  some c.suit = leadSuit ∨ some c.suit = trumpSuit

theorem compareCards_irrefl (a : Card) (ls ts : Option Suit) :
    compareCards a a ls ts = 0 := by
  simp [compareCards]

/-- Value-1 characterization of `compareCards`: a beats b exactly when a is a
trump and b is not, or (same trump status) a follows the lead and b does not,
or (same trump and lead status) the suits are equal and a has the higher
rank. -/
theorem compareCards_eq_one_iff (a b : Card) (ls ts : Option Suit) :
    compareCards a b ls ts = 1 ↔
      ((some a.suit = ts ∧ ¬ some b.suit = ts)
        ∨ ((some a.suit = ts ↔ some b.suit = ts)
            ∧ some a.suit = ls ∧ ¬ some b.suit = ls)
        ∨ ((some a.suit = ts ↔ some b.suit = ts)
            ∧ (some a.suit = ls ↔ some b.suit = ls)
            ∧ a.suit = b.suit ∧ b.rank < a.rank)) := by
  simp only [compareCards]
  split_ifs with h1 h2 h3 h4 h5 h6 h7 <;>
    constructor <;> intro hx <;>
    first
      | tauto
      | omega
      | (rcases hx with hx | hx | hx <;> first | tauto | omega | (obtain ⟨hE, hF, hS, hR⟩ := hx; omega))

theorem compareCards_one_asymm (a b : Card) (ls ts : Option Suit)
    (h1 : compareCards a b ls ts = 1) : compareCards b a ls ts ≠ 1 := by
  intro h2
  rw [compareCards_eq_one_iff] at h1 h2
  rcases h1 with ⟨h1a, h1b⟩ | ⟨h1e, h1a, h1b⟩ | ⟨h1e, h1f, h1s, h1r⟩ <;>
    rcases h2 with ⟨h2a, h2b⟩ | ⟨h2e, h2a, h2b⟩ | ⟨h2e, h2f, h2s, h2r⟩ <;>
    first | tauto | omega

theorem compareCards_leadOrTrump_of_one (a b : Card) (ls ts : Option Suit)
    (h : compareCards a b ls ts = 1) (hb : leadOrTrump ls ts b) :
    leadOrTrump ls ts a := by
  rw [compareCards_eq_one_iff] at h
  unfold leadOrTrump at *
  rcases h with ⟨h1a, h1b⟩ | ⟨h1e, h1a, h1b⟩ | ⟨h1e, h1f, h1s, h1r⟩
  · exact Or.inr h1a
  · exact Or.inl h1a
  · rw [h1s]
    exact hb

theorem compareCards_one_of_not_one (a b : Card) (ls ts : Option Suit)
    (hb : leadOrTrump ls ts b) (hne : a ≠ b)
    (h : compareCards a b ls ts ≠ 1) : compareCards b a ls ts = 1 := by
  rw [compareCards_eq_one_iff]
  have hne' : ¬ (a.suit = b.suit ∧ a.rank = b.rank) := by
    rintro ⟨u, v⟩
    exact hne (by cases a; cases b; simp_all)
  have hnD1 : ¬ (some a.suit = ts ∧ ¬ some b.suit = ts) := fun hd =>
    h ((compareCards_eq_one_iff a b ls ts).mpr (Or.inl hd))
  have hnD3 : ¬ ((some a.suit = ts ↔ some b.suit = ts)
      ∧ (some a.suit = ls ↔ some b.suit = ls)
      ∧ a.suit = b.suit ∧ b.rank < a.rank) := fun hd =>
    h ((compareCards_eq_one_iff a b ls ts).mpr (Or.inr (Or.inr hd)))
  by_cases haT : some a.suit = ts <;> by_cases hbT : some b.suit = ts
  · have hsuit : a.suit = b.suit := Option.some.inj (haT.trans hbT.symm)
    refine Or.inr (Or.inr ⟨iff_of_true hbT haT, by rw [hsuit], hsuit.symm, ?_⟩)
    have hrne : ¬ a.rank = b.rank := fun hr => hne' ⟨hsuit, hr⟩
    have : ¬ b.rank < a.rank := fun hr =>
      hnD3 ⟨iff_of_true haT hbT, by rw [hsuit], hsuit, hr⟩
    omega
  · exact absurd ⟨haT, hbT⟩ hnD1
  · exact Or.inl ⟨hbT, haT⟩
  · have hbL : some b.suit = ls := by
      rcases hb with h1 | h1
      · exact h1
      · exact absurd h1 hbT
    by_cases haL : some a.suit = ls
    · have hsuit : a.suit = b.suit := Option.some.inj (haL.trans hbL.symm)
      refine Or.inr (Or.inr ⟨iff_of_false hbT haT, iff_of_true hbL haL, hsuit.symm, ?_⟩)
      have hrne : ¬ a.rank = b.rank := fun hr => hne' ⟨hsuit, hr⟩
      have : ¬ b.rank < a.rank := fun hr =>
        hnD3 ⟨iff_of_false haT hbT, iff_of_true haL hbL, hsuit, hr⟩
      omega
    · exact Or.inr (Or.inl ⟨iff_of_false hbT haT, hbL, haL⟩)

theorem compareCards_one_trans (a b c : Card) (ls ts : Option Suit)
    (h1 : compareCards a b ls ts = 1) (h2 : compareCards b c ls ts = 1) :
    compareCards a c ls ts = 1 := by
  rw [compareCards_eq_one_iff] at h1 h2 ⊢
  rcases h1 with ⟨h1a, h1b⟩ | ⟨h1e, h1a, h1b⟩ | ⟨h1e, h1f, h1s, h1r⟩ <;>
    rcases h2 with ⟨h2a, h2b⟩ | ⟨h2e, h2a, h2b⟩ | ⟨h2e, h2f, h2s, h2r⟩
  · exact absurd h2a h1b
  · exact Or.inl ⟨h1a, fun hc => h1b (h2e.mpr hc)⟩
  · exact Or.inl ⟨h1a, fun hc => h1b (h2e.mpr hc)⟩
  · exact Or.inl ⟨h1e.mpr h2a, h2b⟩
  · exact absurd h2a h1b
  · exact Or.inr (Or.inl ⟨h1e.trans h2e, h1a, fun hc => h1b (h2f.mpr hc)⟩)
  · exact Or.inl ⟨h1e.mpr h2a, h2b⟩
  · exact Or.inr (Or.inl ⟨h1e.trans h2e, h1f.mpr h2a, h2b⟩)
  · exact Or.inr (Or.inr ⟨h1e.trans h2e, h1f.trans h2f, h1s.trans h2s, by omega⟩)

/-- The running best of the trick-resolution loop: starting from a
lead-or-trump best card, over pairwise-distinct cards, the final best is a
lead-or-trump card among those considered that beats every other considered
card. -/
theorem foldl_trickStep_best (ls ts : Option Suit) (l : List TrickEntry) :
    ∀ b : String × Card, leadOrTrump ls ts b.2 →
      (b.2 :: l.map TrickEntry.card).Nodup →
      leadOrTrump ls ts (l.foldl (fun best e =>
          if compareCards e.card best.2 ls ts = 1 then (e.pid, e.card) else best) b).2
      ∧ (l.foldl (fun best e =>
          if compareCards e.card best.2 ls ts = 1 then (e.pid, e.card) else best) b).2
          ∈ b.2 :: l.map TrickEntry.card
      ∧ ∀ c ∈ b.2 :: l.map TrickEntry.card,
          c ≠ (l.foldl (fun best e =>
            if compareCards e.card best.2 ls ts = 1 then (e.pid, e.card) else best) b).2 →
          compareCards (l.foldl (fun best e =>
            if compareCards e.card best.2 ls ts = 1 then (e.pid, e.card) else best) b).2
            c ls ts = 1 := by
  induction l with
  | nil =>
    intro b hb _
    refine ⟨hb, by simp, ?_⟩
    intro c hc hne
    simp at hc
    exact absurd hc hne
  | cons e t ih =>
    intro b hb hnd
    simp only [List.map_cons] at hnd
    simp only [List.foldl_cons, List.map_cons]
    by_cases hcmp : compareCards e.card b.2 ls ts = 1
    · rw [if_pos hcmp]
      have hbe : leadOrTrump ls ts e.card :=
        compareCards_leadOrTrump_of_one _ _ _ _ hcmp hb
      have hnd' : (e.card :: t.map TrickEntry.card).Nodup := (List.nodup_cons.mp hnd).2
      obtain ⟨hP, hmem, hbeats⟩ := ih (e.pid, e.card) hbe hnd'
      refine ⟨hP, List.mem_cons_of_mem _ hmem, ?_⟩
      intro c hc hne
      rcases List.mem_cons.mp hc with hcb | hcrest
      · subst hcb
        rcases List.mem_cons.mp hmem with hre | hrt
        · rw [hre]
          exact hcmp
        · refine compareCards_one_trans _ _ _ _ _
            (hbeats e.card (List.mem_cons_self _ _) ?_) hcmp
          intro he
          exact (List.nodup_cons.mp hnd').1 (he.symm ▸ hrt)
      · exact hbeats c hcrest hne
    · rw [if_neg hcmp]
      have hnbmem : b.2 ∉ e.card :: t.map TrickEntry.card := (List.nodup_cons.mp hnd).1
      have hnd'' : (b.2 :: t.map TrickEntry.card).Nodup := by
        have hsub : List.Sublist (b.2 :: t.map TrickEntry.card)
            (b.2 :: e.card :: t.map TrickEntry.card) :=
          List.Sublist.cons₂ _ (List.sublist_cons_of_sublist _
            (List.Sublist.refl (t.map TrickEntry.card)))
        exact hnd.sublist hsub
      obtain ⟨hP, hmem, hbeats⟩ := ih b hb hnd''
      have hbE : compareCards b.2 e.card ls ts = 1 := by
        refine compareCards_one_of_not_one e.card b.2 ls ts hb ?_ hcmp
        intro he
        exact hnbmem (he ▸ List.mem_cons_self _ _)
      refine ⟨hP, ?_, ?_⟩
      · rcases List.mem_cons.mp hmem with h1 | h1
        · exact List.mem_cons.mpr (Or.inl h1)
        · exact List.mem_cons.mpr (Or.inr (List.mem_cons_of_mem _ h1))
      · intro c hc hne
        rcases List.mem_cons.mp hc with hcb | hcrest
        · exact hbeats c (List.mem_cons.mpr (Or.inl hcb)) hne
        · rcases List.mem_cons.mp hcrest with hce | hct
          · subst hce
            rcases List.mem_cons.mp hmem with h1 | h1
            · rw [h1]
              exact hbE
            · refine compareCards_one_trans _ _ _ _ _
                (hbeats b.2 (List.mem_cons_self _ _) ?_) hbE
              intro he
              exact (List.nodup_cons.mp hnd'').1 (he.symm ▸ h1)
          · exact hbeats c (List.mem_cons.mpr (Or.inr hct)) hne

/-- C3 counterexample: in a realizable trick (lead S, trump H) the two
off-suit cards 2D and 2C are distinct played cards, yet the comparison
returns 0 both ways — neither beats the other — so the comparison is not a
strict total order over the whole set of played cards. -/
theorem c3_counterexample :
    (Card.mk Suit.D 2 ∈ ([{ pid := "p1", card := Card.mk Suit.S 9 },
        { pid := "p2", card := Card.mk Suit.D 2 },
        { pid := "p3", card := Card.mk Suit.C 2 }] : List TrickEntry).map TrickEntry.card)
      ∧ (Card.mk Suit.C 2 ∈ ([{ pid := "p1", card := Card.mk Suit.S 9 },
          { pid := "p2", card := Card.mk Suit.D 2 },
          { pid := "p3", card := Card.mk Suit.C 2 }] : List TrickEntry).map TrickEntry.card)
      ∧ Card.mk Suit.D 2 ≠ Card.mk Suit.C 2
      ∧ compareCards (Card.mk Suit.D 2) (Card.mk Suit.C 2) (some Suit.S) (some Suit.H) = 0
      ∧ compareCards (Card.mk Suit.C 2) (Card.mk Suit.D 2) (some Suit.S) (some Suit.H) = 0 := by
  decide

/-- C3 (amended): with the lead suit set by the first card of the trick, the
`compareCards` relation is a strict total order on the cards that follow the
lead suit or are trumps (total there, asymmetric and transitive everywhere,
irreflexive); and for any trick of pairwise-distinct cards the declared
winner's card beats every other played card — it is the maximum under the
order, which the comparison confines to lead-or-trump cards. -/
theorem c3_amended (ts : Option Suit) (e0 : TrickEntry) (rest : List TrickEntry)
    (hnd : (e0.card :: rest.map TrickEntry.card).Nodup) :
    ((∀ x y : Card, leadOrTrump (some e0.card.suit) ts x →
        leadOrTrump (some e0.card.suit) ts y → x ≠ y →
        compareCards x y (some e0.card.suit) ts = 1
          ∨ compareCards y x (some e0.card.suit) ts = 1)
      ∧ (∀ x y : Card, compareCards x y (some e0.card.suit) ts = 1 →
          compareCards y x (some e0.card.suit) ts ≠ 1)
      ∧ (∀ x : Card, compareCards x x (some e0.card.suit) ts = 0)
      ∧ (∀ x y z : Card, compareCards x y (some e0.card.suit) ts = 1 →
          compareCards y z (some e0.card.suit) ts = 1 →
          compareCards x z (some e0.card.suit) ts = 1))
    ∧ ∃ w bc, resolveTrick (e0 :: rest) (some e0.card.suit) ts = some (w, bc)
        ∧ bc ∈ (e0 :: rest).map TrickEntry.card
        ∧ ∀ c ∈ (e0 :: rest).map TrickEntry.card, c ≠ bc →
            compareCards bc c (some e0.card.suit) ts = 1 := by
  constructor
  · refine ⟨?_, ?_, ?_, ?_⟩
    · intro x y hx hy hne
      by_cases h1 : compareCards x y (some e0.card.suit) ts = 1
      · exact Or.inl h1
      · exact Or.inr (compareCards_one_of_not_one x y _ _ hy hne h1)
    · exact fun x y h => compareCards_one_asymm x y _ _ h
    · exact fun x => compareCards_irrefl x _ _
    · exact fun x y z h1 h2 => compareCards_one_trans x y z _ _ h1 h2
  · have hP : leadOrTrump (some e0.card.suit) ts e0.card := Or.inl rfl
    obtain ⟨hPr, hmem, hbeats⟩ := foldl_trickStep_best (some e0.card.suit) ts rest
      (e0.pid, e0.card) hP hnd
    refine ⟨(rest.foldl (fun best e =>
        if compareCards e.card best.2 (some e0.card.suit) ts = 1 then (e.pid, e.card)
        else best) (e0.pid, e0.card)).1,
      (rest.foldl (fun best e =>
        if compareCards e.card best.2 (some e0.card.suit) ts = 1 then (e.pid, e.card)
        else best) (e0.pid, e0.card)).2, ?_, ?_, ?_⟩
    · simp only [resolveTrick]
    · simpa using hmem
    · intro c hc hne
      exact hbeats c (by simpa using hc) hne

/-- C3 witness: the totality of the comparison over lead-or-trump cards,
instantiated on a concrete trick led with 9S under trump hearts. -/
theorem c3_witness :
    compareCards (Card.mk Suit.S 13) (Card.mk Suit.S 9) (some Suit.S) (some Suit.H) = 1
      ∨ compareCards (Card.mk Suit.S 9) (Card.mk Suit.S 13) (some Suit.S) (some Suit.H) = 1 := by
  have h := c3_amended (some Suit.H) { pid := "p1", card := Card.mk Suit.S 9 }
    [{ pid := "p2", card := Card.mk Suit.S 13 }, { pid := "p3", card := Card.mk Suit.C 2 }]
    (by decide)
  exact h.1.1 (Card.mk Suit.S 13) (Card.mk Suit.S 9) (Or.inl rfl) (Or.inl rfl) (by decide)
